import Mathlib

/-!
Shallow embedding of `src/lib/wasmstandalone/src/execution.rs`: the code
generation driver (`compile_module`), the relocation resolver (`relocate`),
the execution launcher (`execute`) and the diagnostic formatters
(`pretty_verifier_error`, `pretty_error`).

Modelling conventions:
* Machine bytes are `Nat` (each < 256); code buffers are `List Nat`.
* Raw pointers are abstracted by an allocator oracle `addr : Nat → Int`
  giving the base address of the i-th code buffer (`functions_code[i].as_ptr()`);
  buffers are never reallocated, so bases are constant through the pipeline.
* The external cretonne backend (`verify_function`, `Context::compile`,
  `Context::emit_to_memory`) is an oracle record `Backend`; the external OS
  call `region::protect` is an oracle `Int → Nat → Except OsError Unit`.
* Rust `Result<T, String>` together with the possibility of a panic
  (`unwrap`, `debug_assert!`, out-of-bounds indexing) is modelled by
  `RunResult`, which distinguishes `ok`, `err` and `panic`.
* Rust's `HashMap<u16, _>` is modelled by an association list whose
  `insert` replaces any existing binding of the key, as `HashMap::insert`
  does; `values` is the value list.
* The shared settings builder constructed at the top of `compile_module`
  (lines 75-81) is dead state: it is built and never used, so it has no
  observable effect and is not modelled.
-/

namespace WasmStandalone

/-- Two's-complement truncation of an integer to its low 32 bits, as a `Nat`. -/
def wrap32 (x : Int) : Nat := (x % 4294967296).toNat

/-- Reinterpret a 32-bit unsigned value as a signed 32-bit integer. -/
def toI32 (n : Nat) : Int := if n < 2147483648 then (n : Int) else (n : Int) - 4294967296

/-- The Rust cast `x as i32` on a wide integer: truncate to 32 bits, signed. -/
def asI32 (x : Int) : Int := toI32 (wrap32 x)

/-- Byte of a buffer at an index (reads as 0 out of bounds; in-bounds use only). -/
def byteAt (buf : List Nat) (i : Nat) : Nat := (buf[i]?).getD 0

/-- Little-endian 4-byte store of `v as i32` at byte offset `off`, modelling
`ptr::write_unaligned(reloc_address as *mut i32, reloc_delta_i32)`. -/
def writeI32 (buf : List Nat) (off : Nat) (v : Int) : List Nat :=
  ((((buf.set off (wrap32 v % 256)).set (off + 1) (wrap32 v / 256 % 256)).set
      (off + 2) (wrap32 v / 65536 % 256)).set (off + 3) (wrap32 v / 16777216 % 256))

/-- Little-endian 4-byte unsigned load at byte offset `off`. -/
def readU32 (buf : List Nat) (off : Nat) : Nat :=
  byteAt buf off + 256 * byteAt buf (off + 1) + 65536 * byteAt buf (off + 2) +
    16777216 * byteAt buf (off + 3)

/-- The signed 32-bit value stored at byte offset `off`. -/
def readI32 (buf : List Nat) (off : Nat) : Int := toI32 (readU32 buf off)

/-- Apply a list of (offset, value) 32-bit stores to a buffer, in order. -/
def applyWrites (ws : List (Nat × Int)) (buf : List Nat) : List Nat :=
  ws.foldl (fun b w => writeI32 b w.1 w.2) buf

/-- Model of `HashMap::insert`: replaces any existing binding of the key. -/
def hashInsert (m : List (Nat × α)) (k : Nat) (v : α) : List (Nat × α) :=
  (k, v) :: m.filter (fun p => p.1 != k)

/-- Model of `HashMap::get`: the value bound to `k`, if any. -/
def hashLookup (m : List (Nat × α)) (k : Nat) : Option α :=
  (m.find? (fun p => p.1 == k)).map Prod.snd

/-- Number of bindings of key `k` present in the map. -/
def countKey (m : List (Nat × α)) (k : Nat) : Nat :=
  (m.filter (fun p => p.1 == k)).length

/-- Model of `HashMap::values`: the list of stored values. -/
def values (m : List (Nat × α)) : List α := m.map Prod.snd

/-- Relocation sink that saves all relocation information for later
(`struct StandaloneRelocSink`): three maps from the backend-assigned
`RelocRef` (`u16`, the field `reloc.0`) to target and code offset. -/
structure StandaloneRelocSink where
  ebbs : List (Nat × (Nat × Nat))
  funcs : List (Nat × (Nat × Nat))
  jts : List (Nat × (Nat × Nat))

/-- Sink constructor `StandaloneRelocSink::new`: all three maps empty. -/
def StandaloneRelocSink.new : StandaloneRelocSink :=
  { ebbs := [], funcs := [], jts := [] }

/-- Method `reloc_ebb` of the `RelocSink` impl: `self.ebbs.insert(reloc.0, (ebb, offset))`. -/
def reloc_ebb (s : StandaloneRelocSink) (offset : Nat) (reloc : Nat) (ebb : Nat) :
    StandaloneRelocSink :=
  { s with ebbs := hashInsert s.ebbs reloc (ebb, offset) }

/-- Method `reloc_func` of the `RelocSink` impl: `self.funcs.insert(reloc.0, (func, offset))`. -/
def reloc_func (s : StandaloneRelocSink) (offset : Nat) (reloc : Nat) (func : Nat) :
    StandaloneRelocSink :=
  { s with funcs := hashInsert s.funcs reloc (func, offset) }

/-- Method `reloc_jt` of the `RelocSink` impl: `self.jts.insert(reloc.0, (jt, offset))`. -/
def reloc_jt (s : StandaloneRelocSink) (offset : Nat) (reloc : Nat) (jt : Nat) :
    StandaloneRelocSink :=
  { s with jts := hashInsert s.jts reloc (jt, offset) }

/-- Abstraction of a cretonne IR `Function`. Only the pieces this file's code
consumes are kept: the block(ebb)→code-offset table `func.offsets[ebb]`
populated by compilation, and the external display routines used by the
diagnostic formatters (`func.display(isa)` and `func.dfg.display_inst`). -/
structure Func where
  offsets : Nat → Nat
  display : String
  displayInst : Nat → String

/-- Metadata necessary to perform relocations (`struct FunctionMetaData`). -/
structure FunctionMetaData where
  relocs : StandaloneRelocSink
  il_func : Func

/-- Compiled code of the functions, ready to be executed (`struct ExecutableCode`). -/
structure ExecutableCode where
  functions_code : List (List Nat)
  start_index : Nat
deriving DecidableEq

/-- The translated module handed to `compile_module` (`cton_wasm::TranslationResult`):
the IR functions of the locally defined functions, the number of leading
imported function indices, and the optional start function index. -/
structure TranslationResult where
  functions : List Func
  function_imports_count : Nat
  start_index : Option Nat

/-- The runtime's mapping from call-site `FuncRef` to module-wide function
index (`runtime.func_indices`, from `StandaloneRuntime`). -/
structure StandaloneRuntime where
  func_indices : Nat → Nat

/-- Location carried by a verifier error (`cretonne::ir::entities::AnyEntity`),
abstracted to the two cases `pretty_verifier_error` distinguishes. -/
inductive AnyEntity where
  | inst (i : Nat)
  | otherEntity (s : String)

/-- A cretonne verifier error (`verifier::Error`): its display message and
its location. -/
structure VerifierError where
  message : String
  location : AnyEntity

/-- A cretonne compilation error (`CtonError`), abstracted to the two cases
`pretty_error` distinguishes: a late verifier error, or anything else
(carrying its display string). -/
inductive CtonError where
  | verifier (e : VerifierError)
  | otherError (msg : String)

/-- Display of an instruction entity (`format!("{}", inst)` on an `Inst`). -/
def instDisplay (i : Nat) : String := "inst" ++ toString i

/-- Pretty-print a verifier error (`pretty_verifier_error`): the error's
message, then — when the location is an instruction — the instruction and
its textual form, then a full dump of the function. -/
def pretty_verifier_error (func : Func) (err : VerifierError) : String :=
  let msg := err.message
  let msg :=
    match err.location with
    | AnyEntity.inst i => msg ++ "\n" ++ instDisplay i ++ ": " ++ func.displayInst i ++ "\n\n"
    | AnyEntity.otherEntity _ => msg ++ "\n"
  msg ++ func.display

/-- Pretty-print a cretonne error (`pretty_error`): verifier errors go
through `pretty_verifier_error`, everything else is its display string. -/
def pretty_error (func : Func) (err : CtonError) : String :=
  match err with
  | CtonError.verifier e => pretty_verifier_error func e
  | CtonError.otherError msg => msg

/-- Oracle for the external cretonne backend. `verify` is
`verify_function(func, isa)`; `compile` is `context.compile(isa)`, returning
the (possibly legalized) context function and the code size, or the error
together with the context function at failure time; `emit` is
`context.emit_to_memory(ptr, relocsink, isa)`, receiving the zeroed buffer
of the reported size and returning the filled buffer and the relocation
sink contents. -/
structure Backend where
  verify : Func → Except VerifierError Unit
  compile : Func → Except (Func × CtonError) (Func × Nat)
  emit : Func → List Nat → List Nat × StandaloneRelocSink

/-- Outcome of running a piece of the pipeline: `Ok`, `Err(msg)`, or a
Rust panic (from `unwrap`, `debug_assert!` or out-of-bounds indexing). -/
inductive RunResult (α : Type) where
  | ok (value : α)
  | err (msg : String)
  | panic (msg : String)
deriving DecidableEq

/-- One iteration per function of the `compile_module` loop (lines 84-103):
verify (with `.unwrap()`, so a verifier failure panics), compile (mapping
the error through `pretty_error`), reject a zero code size, then emit into
a zeroed buffer of the reported size and record the metadata. -/
def compileLoop (backend : Backend) :
    List Func → RunResult (List FunctionMetaData × List (List Nat))
  | [] => RunResult.ok ([], [])
  | f :: rest =>
    match backend.verify f with
    | Except.error e =>
      RunResult.panic ("called Result::unwrap() on an Err value: " ++ e.message)
    | Except.ok () =>
      match backend.compile f with
      | Except.error (ctx_func, e) => RunResult.err (pretty_error ctx_func e)
      | Except.ok (ctx_func, code_size) =>
        if code_size = 0 then RunResult.err "no code generated by Cretonne"
        else
          let p := backend.emit ctx_func (List.replicate code_size 0)
          match compileLoop backend rest with
          | RunResult.ok (mds, codes) =>
            RunResult.ok ({ relocs := p.2, il_func := ctx_func } :: mds, p.1 :: codes)
          | RunResult.err m => RunResult.err m
          | RunResult.panic m => RunResult.panic m

/-- Condition of the `debug_assert!` at the top of `compile_module`:
`start_index.is_none() || start_index.unwrap() >= function_imports_count`. -/
def startIndexOk (tr : TranslationResult) : Bool :=
  match tr.start_index with
  | none => true
  | some s => tr.function_imports_count ≤ s

/-- Body of the two relocation loops of `relocate` for one function
(lines 164-189): patch every recorded call-target relocation, then every
recorded ebb relocation, of function `func_index` into its buffer `buf`.
`addr i` is the base address of the i-th code buffer. -/
def relocateFunc (function_imports_count : Nat) (runtime : StandaloneRuntime)
    (addr : Nat → Int) (func_index : Nat) (m : FunctionMetaData) (buf : List Nat) :
    List Nat :=
  let buf1 := (values m.relocs.funcs).foldl (fun b p =>
    let target_func_index := runtime.func_indices p.1 - function_imports_count
    let target_func_address : Int := addr target_func_index
    let reloc_address : Int := addr func_index + ((p.2 : Int) + 4)
    let reloc_delta_i32 : Int := asI32 (target_func_address - reloc_address)
    writeI32 b (p.2 + 4) reloc_delta_i32) buf
  (values m.relocs.ebbs).foldl (fun b p =>
    let reloc_address : Int := addr func_index + ((p.2 : Int) + 4)
    let target_ebb_address : Int := addr func_index + (m.il_func.offsets p.1 : Int)
    let reloc_delta_i32 : Int := asI32 (target_ebb_address - reloc_address)
    writeI32 b (p.2 + 4) reloc_delta_i32) buf1

/-- The (site, value) 32-bit stores performed by `relocateFunc`'s call-target
loop, in iteration order. -/
def funcWrites (function_imports_count : Nat) (runtime : StandaloneRuntime)
    (addr : Nat → Int) (func_index : Nat) (m : FunctionMetaData) : List (Nat × Int) :=
  (values m.relocs.funcs).map (fun p =>
    (p.2 + 4,
      asI32 (addr (runtime.func_indices p.1 - function_imports_count) -
        (addr func_index + ((p.2 : Int) + 4)))))

/-- The (site, value) 32-bit stores performed by `relocateFunc`'s ebb loop,
in iteration order. -/
def ebbWrites (addr : Nat → Int) (func_index : Nat) (m : FunctionMetaData) :
    List (Nat × Int) :=
  (values m.relocs.ebbs).map (fun p =>
    (p.2 + 4,
      asI32 ((addr func_index + (m.il_func.offsets p.1 : Int)) -
        (addr func_index + ((p.2 : Int) + 4)))))

/-- Erase the recorded jump-table relocations of one function's metadata. -/
def clearJts (m : FunctionMetaData) : FunctionMetaData :=
  { m with relocs := { m.relocs with jts := [] } }

/-- One step of `relocate`'s outer loop: replace buffer `p.1` by its
patched form. -/
def relocateStep (function_imports_count : Nat) (runtime : StandaloneRuntime)
    (addr : Nat → Int) (code : List (List Nat)) (p : Nat × FunctionMetaData) :
    List (List Nat) :=
  code.set p.1
    (relocateFunc function_imports_count runtime addr p.1 p.2 (code.getD p.1 []))

/-- The relocation resolver `relocate` (lines 152-192): for each function,
in order, patch its call-target and ebb relocations in place. Jump-table
relocations are not visited (the `TODO` at line 190). -/
def relocate (function_imports_count : Nat) (functions_metatada : List FunctionMetaData)
    (functions_code : List (List Nat)) (runtime : StandaloneRuntime)
    (addr : Nat → Int) : List (List Nat) :=
  functions_metatada.enum.foldl (relocateStep function_imports_count runtime addr)
    functions_code

/-- The code generation driver `compile_module` (lines 64-122): assert the
start-index invariant, compile every function, relocate, then package the
result — failing when there is no start function. -/
def compile_module (backend : Backend) (tr : TranslationResult)
    (runtime : StandaloneRuntime) (addr : Nat → Int) : RunResult ExecutableCode :=
  if startIndexOk tr then
    match compileLoop backend tr.functions with
    | RunResult.err msg => RunResult.err msg
    | RunResult.panic msg => RunResult.panic msg
    | RunResult.ok (functions_metatada, functions_code) =>
      let functions_code :=
        relocate tr.function_imports_count functions_metatada functions_code runtime addr
      match tr.start_index with
      | none => RunResult.err "No start function defined, aborting execution"
      | some index =>
        RunResult.ok { functions_code := functions_code, start_index := index }
  else RunResult.panic "imported start functions not supported yet"

/-- Error type of the OS `protect` call (`region::Error`), abstracted to its
description string (`err.description()`). -/
structure OsError where
  description : String
deriving DecidableEq

/-- Observable OS-level events of the launcher: a memory-permission change
of the region at `base` of `len` bytes to read+write+execute, and a raw
call into the code at `base`. -/
inductive OsEvent where
  | protect (base : Int) (len : Nat)
  | call (base : Int)
deriving DecidableEq

/-- The execution launcher `execute` (lines 125-149): index the buffer list
at `start_index` (a Rust `Vec` index, panicking out of bounds), ask the OS
to make that buffer executable — surfacing a failure with its description
and performing no call — and otherwise transmute the base address to a
zero-argument function and call it. Returns the result together with the
trace of OS events. -/
def execute (exec : ExecutableCode) (addr : Nat → Int)
    (os : Int → Nat → Except OsError Unit) : RunResult Unit × List OsEvent :=
  if exec.start_index < exec.functions_code.length then
    let code_buf := exec.functions_code.getD exec.start_index []
    let base := addr exec.start_index
    match os base code_buf.length with
    | Except.error err =>
      (RunResult.err ("failed to give executable permission to code: " ++ err.description),
        [OsEvent.protect base code_buf.length])
    | Except.ok () => (RunResult.ok (), [OsEvent.protect base code_buf.length, OsEvent.call base])
  else (RunResult.panic "index out of bounds", [])

/-- Modelled from the spec: the caller composition of the phases, which is
outside this source file (the binary driving it). Spec §2: "Three
components compose in sequence"; a compilation failure aborts the pipeline
before the launcher runs, so no OS event is produced. -/
def runModule (backend : Backend) (tr : TranslationResult) (runtime : StandaloneRuntime)
    (addr : Nat → Int) (os : Int → Nat → Except OsError Unit) :
    RunResult Unit × List OsEvent :=
  match compile_module backend tr runtime addr with
  | RunResult.ok exec => execute exec addr os
  | RunResult.err msg => (RunResult.err msg, [])
  | RunResult.panic msg => (RunResult.panic msg, [])

/-! Concrete instances used to exercise the definitions. -/

/-- A trivial IR function: empty offset table and empty display forms. -/
def f0 : Func := { offsets := fun _ => 0, display := "", displayInst := fun _ => "" }

/-- An IR function whose block-offset table sends block `e` to byte `6 * e`. -/
def fOffsets : Func := { offsets := fun e => 6 * e, display := "", displayInst := fun _ => "" }

/-- A backend whose functions all verify, compile to one byte, and emit no
relocations. -/
def backendTriv : Backend :=
  { verify := fun _ => Except.ok ()
    compile := fun f => Except.ok (f, 1)
    emit := fun _ buf => (buf, StandaloneRelocSink.new) }

/-- A backend whose verifier rejects every function. -/
def backendBadVerify : Backend :=
  { verify := fun _ => Except.error { message := "bad", location := AnyEntity.otherEntity "x" }
    compile := fun f => Except.ok (f, 1)
    emit := fun _ buf => (buf, StandaloneRelocSink.new) }

/-- A backend that verifies every function but whose compile step reports a
late verifier error located at instruction 3. -/
def backendBadCompile : Backend :=
  { verify := fun _ => Except.ok ()
    compile := fun f =>
      Except.error (f, CtonError.verifier { message := "typecheck failed", location := AnyEntity.inst 3 })
    emit := fun _ buf => (buf, StandaloneRelocSink.new) }

/-- A backend whose compile step succeeds but reports zero code bytes. -/
def backendZero : Backend :=
  { verify := fun _ => Except.ok ()
    compile := fun f => Except.ok (f, 0)
    emit := fun _ buf => (buf, StandaloneRelocSink.new) }

/-- An allocator placing the i-th buffer at base address `4096 * i`. -/
def addr0 : Nat → Int := fun i => 4096 * (i : Int)

/-- A runtime whose call-site lookup is the identity. -/
def rt0 : StandaloneRuntime := { func_indices := fun i => i }

/-- An OS oracle that grants every permission change. -/
def os0 : Int → Nat → Except OsError Unit := fun _ _ => Except.ok ()

/-- An OS oracle that denies every permission change. -/
def osFail : Int → Nat → Except OsError Unit :=
  fun _ _ => Except.error { description := "mprotect denied" }

/-- Metadata holding exactly one call-target relocation: reference id 0,
call-site `FuncRef` 0, code offset 0. -/
def mdCall : FunctionMetaData :=
  { relocs := { ebbs := [], funcs := [(0, (0, 0))], jts := [] }, il_func := f0 }

/-- Metadata holding exactly one ebb relocation: reference id 0, target
block 1, code offset 0. -/
def mdEbb : FunctionMetaData :=
  { relocs := { ebbs := [(0, (1, 0))], funcs := [], jts := [] }, il_func := fOffsets }

/-- Metadata holding exactly one jump-table relocation: reference id 0,
jump table 0, code offset 0. -/
def mdJt : FunctionMetaData :=
  { relocs := { ebbs := [], funcs := [], jts := [(0, (0, 0))] }, il_func := f0 }

/-- An eight-byte buffer of the value 7 in every byte. -/
def buf8 : List Nat := [7, 7, 7, 7, 7, 7, 7, 7]

/-- A module with one local function, no imports, start index 0. -/
def trPlain : TranslationResult :=
  { functions := [f0], function_imports_count := 0, start_index := some 0 }

/-- A module with one local function, one import, start index 1 (the sole
local function, in module-wide indexing). -/
def trImport : TranslationResult :=
  { functions := [f0], function_imports_count := 1, start_index := some 1 }

/-- A module whose start index 0 names an import (import count 2). -/
def trBadStart : TranslationResult :=
  { functions := [f0], function_imports_count := 2, start_index := some 0 }

/-- A module with one local function and no start index. -/
def trNoStart : TranslationResult :=
  { functions := [f0], function_imports_count := 0, start_index := none }

/-- The executable code produced by compiling `trImport` with `backendTriv`. -/
def execImport : ExecutableCode := { functions_code := [[0]], start_index := 1 }

/-- The executable code produced by compiling `trPlain` with `backendTriv`. -/
def execPlain : ExecutableCode := { functions_code := [[0]], start_index := 0 }

/-! Arithmetic and byte-buffer lemmas. -/

theorem wrap32_lt (x : Int) : wrap32 x < 4294967296 := by
  unfold wrap32; omega

theorem wrap32_asI32 (x : Int) : wrap32 (asI32 x) = wrap32 x := by
  unfold asI32 toI32 wrap32
  split <;> omega

theorem asI32_asI32 (x : Int) : asI32 (asI32 x) = asI32 x :=
  congrArg toI32 (wrap32_asI32 x)

theorem length_writeI32 (buf : List Nat) (off : Nat) (v : Int) :
    (writeI32 buf off v).length = buf.length := by
  simp [writeI32]

theorem byteAt_writeI32_disjoint (buf : List Nat) (off : Nat) (v : Int) (j : Nat)
    (h : j < off ∨ off + 4 ≤ j) : byteAt (writeI32 buf off v) j = byteAt buf j := by
  unfold writeI32 byteAt
  rw [List.getElem?_set_ne (by omega), List.getElem?_set_ne (by omega),
    List.getElem?_set_ne (by omega), List.getElem?_set_ne (by omega)]

theorem readU32_writeI32_disjoint (buf : List Nat) (off o : Nat) (v : Int)
    (h : off + 4 ≤ o ∨ o + 4 ≤ off) :
    readU32 (writeI32 buf off v) o = readU32 buf o := by
  unfold readU32
  rw [byteAt_writeI32_disjoint _ _ _ _ (by omega), byteAt_writeI32_disjoint _ _ _ _ (by omega),
    byteAt_writeI32_disjoint _ _ _ _ (by omega), byteAt_writeI32_disjoint _ _ _ _ (by omega)]

theorem readU32_writeI32 (buf : List Nat) (off : Nat) (v : Int) (h : off + 4 ≤ buf.length) :
    readU32 (writeI32 buf off v) off = wrap32 v := by
  have h0 : byteAt (writeI32 buf off v) off = wrap32 v % 256 := by
    unfold writeI32 byteAt
    rw [List.getElem?_set_ne (by omega), List.getElem?_set_ne (by omega),
      List.getElem?_set_ne (by omega), List.getElem?_set_eq_of_lt _ (by omega)]
    rfl
  have h1 : byteAt (writeI32 buf off v) (off + 1) = wrap32 v / 256 % 256 := by
    unfold writeI32 byteAt
    rw [List.getElem?_set_ne (by omega), List.getElem?_set_ne (by omega),
      List.getElem?_set_eq_of_lt _ (by simp; omega)]
    rfl
  have h2 : byteAt (writeI32 buf off v) (off + 2) = wrap32 v / 65536 % 256 := by
    unfold writeI32 byteAt
    rw [List.getElem?_set_ne (by omega),
      List.getElem?_set_eq_of_lt _ (by simp; omega)]
    rfl
  have h3 : byteAt (writeI32 buf off v) (off + 3) = wrap32 v / 16777216 % 256 := by
    unfold writeI32 byteAt
    rw [List.getElem?_set_eq_of_lt _ (by simp; omega)]
    rfl
  unfold readU32
  rw [h0, h1, h2, h3]
  have := wrap32_lt v
  omega

theorem applyWrites_cons (w : Nat × Int) (ws : List (Nat × Int)) (buf : List Nat) :
    applyWrites (w :: ws) buf = applyWrites ws (writeI32 buf w.1 w.2) := rfl

theorem length_applyWrites (ws : List (Nat × Int)) (buf : List Nat) :
    (applyWrites ws buf).length = buf.length := by
  induction ws generalizing buf with
  | nil => rfl
  | cons w ws ih => rw [applyWrites_cons, ih, length_writeI32]

theorem readU32_applyWrites_disjoint (ws : List (Nat × Int)) (buf : List Nat) (o : Nat)
    (h : ∀ w ∈ ws, w.1 + 4 ≤ o ∨ o + 4 ≤ w.1) :
    readU32 (applyWrites ws buf) o = readU32 buf o := by
  induction ws generalizing buf with
  | nil => rfl
  | cons w ws ih =>
    rw [applyWrites_cons, ih _ (fun w' hw' => h w' (List.mem_cons_of_mem _ hw')),
      readU32_writeI32_disjoint _ _ _ _ (h w (List.mem_cons_self _ _))]

theorem readU32_applyWrites_mem (ws : List (Nat × Int)) (buf : List Nat) (o : Nat) (v : Int)
    (hin : (o, v) ∈ ws)
    (hb : ∀ w ∈ ws, w.1 + 4 ≤ buf.length)
    (hd : ∀ w ∈ ws, w = (o, v) ∨ w.1 + 4 ≤ o ∨ o + 4 ≤ w.1) :
    readU32 (applyWrites ws buf) o = wrap32 v := by
  induction ws generalizing buf with
  | nil => cases hin
  | cons w ws ih =>
    rw [applyWrites_cons]
    by_cases hmem : (o, v) ∈ ws
    · exact ih (writeI32 buf w.1 w.2) hmem
        (fun w' hw' => by rw [length_writeI32]; exact hb w' (List.mem_cons_of_mem _ hw'))
        (fun w' hw' => hd w' (List.mem_cons_of_mem _ hw'))
    · have hw : w = (o, v) := by
        rcases List.mem_cons.mp hin with h | h
        · exact h.symm
        · exact absurd h hmem
      subst hw
      have hrest : ∀ w' ∈ ws, w'.1 + 4 ≤ o ∨ o + 4 ≤ w'.1 := by
        intro w' hw'
        rcases hd w' (List.mem_cons_of_mem _ hw') with h | h
        · exact absurd (h ▸ hw') hmem
        · exact h
      rw [readU32_applyWrites_disjoint _ _ _ hrest,
        readU32_writeI32 _ _ _ (hb _ (List.mem_cons_self _ _))]

theorem readI32_applyWrites_mem (ws : List (Nat × Int)) (buf : List Nat) (o : Nat) (v : Int)
    (hin : (o, v) ∈ ws)
    (hb : ∀ w ∈ ws, w.1 + 4 ≤ buf.length)
    (hd : ∀ w ∈ ws, w = (o, v) ∨ w.1 + 4 ≤ o ∨ o + 4 ≤ w.1) :
    readI32 (applyWrites ws buf) o = asI32 v := by
  unfold readI32
  rw [readU32_applyWrites_mem ws buf o v hin hb hd]
  rfl

/-! Characterization of the relocation resolver. -/

theorem getD_set_ne (l : List (List Nat)) (i j : Nat) (a : List Nat) (h : i ≠ j) :
    (l.set i a).getD j [] = l.getD j [] := by
  simp [List.getD, List.getElem?_set_ne h]

theorem getD_set_eq (l : List (List Nat)) (i : Nat) (a : List Nat) (h : i < l.length) :
    (l.set i a).getD i [] = a := by
  simp [List.getD, List.getElem?_set_eq_of_lt a h]

theorem relocateFunc_eq (c : Nat) (rt : StandaloneRuntime) (addr : Nat → Int)
    (i : Nat) (m : FunctionMetaData) (buf : List Nat) :
    relocateFunc c rt addr i m buf =
      applyWrites (funcWrites c rt addr i m ++ ebbWrites addr i m) buf := by
  unfold relocateFunc funcWrites ebbWrites applyWrites
  rw [List.foldl_append, List.foldl_map, List.foldl_map]

theorem length_relocateFunc (c : Nat) (rt : StandaloneRuntime) (addr : Nat → Int)
    (i : Nat) (m : FunctionMetaData) (buf : List Nat) :
    (relocateFunc c rt addr i m buf).length = buf.length := by
  rw [relocateFunc_eq, length_applyWrites]

theorem length_relocateStep (c : Nat) (rt : StandaloneRuntime) (addr : Nat → Int)
    (code : List (List Nat)) (p : Nat × FunctionMetaData) :
    (relocateStep c rt addr code p).length = code.length :=
  List.length_set ..

theorem relocate_foldl_untouched (c : Nat) (rt : StandaloneRuntime) (addr : Nat → Int)
    (md : List FunctionMetaData) :
    ∀ (k : Nat) (code : List (List Nat)) (j : Nat), j < k →
      ((md.enumFrom k).foldl (relocateStep c rt addr) code).getD j [] = code.getD j [] := by
  induction md with
  | nil => intro k code j _; rfl
  | cons m rest ih =>
    intro k code j hj
    rw [show (m :: rest).enumFrom k = (k, m) :: rest.enumFrom (k + 1) from rfl,
      List.foldl_cons, ih (k + 1) _ j (by omega)]
    exact getD_set_ne _ _ _ _ (by omega)

theorem relocate_foldl_get (c : Nat) (rt : StandaloneRuntime) (addr : Nat → Int)
    (md : List FunctionMetaData) :
    ∀ (k : Nat) (code : List (List Nat)) (j : Nat) (m : FunctionMetaData),
      md[j]? = some m → k + j < code.length →
      ((md.enumFrom k).foldl (relocateStep c rt addr) code).getD (k + j) [] =
        relocateFunc c rt addr (k + j) m (code.getD (k + j) []) := by
  induction md with
  | nil => intro k code j m hm _; cases hm
  | cons m0 rest ih =>
    intro k code j m hm hlen
    rw [show (m0 :: rest).enumFrom k = (k, m0) :: rest.enumFrom (k + 1) from rfl,
      List.foldl_cons]
    match j with
    | 0 =>
      have hm0 : m = m0 := by
        simp only [List.getElem?_cons_zero] at hm
        exact (Option.some.inj hm).symm
      subst hm0
      rw [relocate_foldl_untouched c rt addr rest (k + 1) _ (k + 0) (by omega)]
      show (code.set k _).getD (k + 0) [] = _
      rw [show k + 0 = k from rfl, getD_set_eq _ _ _ (by omega)]
    | j' + 1 =>
      have hm' : rest[j']? = some m := by
        simpa using hm
      have harith : k + (j' + 1) = (k + 1) + j' := by omega
      rw [harith]
      have := ih (k + 1) (relocateStep c rt addr code (k, m0)) j' m hm'
        (by rw [length_relocateStep]; omega)
      rw [this]
      show relocateFunc c rt addr _ m (((code.set k _).getD ((k + 1) + j') [])) = _
      rw [getD_set_ne _ _ _ _ (by omega)]

theorem relocate_getD (c : Nat) (md : List FunctionMetaData) (code : List (List Nat))
    (rt : StandaloneRuntime) (addr : Nat → Int) (i : Nat) (m : FunctionMetaData)
    (hm : md[i]? = some m) (hi : i < code.length) :
    (relocate c md code rt addr).getD i [] =
      relocateFunc c rt addr i m (code.getD i []) := by
  have := relocate_foldl_get c rt addr md 0 code i m hm (by omega)
  simpa using this

theorem relocate_length (c : Nat) (md : List FunctionMetaData) (code : List (List Nat))
    (rt : StandaloneRuntime) (addr : Nat → Int) :
    (relocate c md code rt addr).length = code.length := by
  unfold relocate
  generalize md.enum = l
  induction l generalizing code with
  | nil => rfl
  | cons p rest ih => rw [List.foldl_cons, ih, length_relocateStep]

/-! Characterization of the compilation loop and of compile_module. -/

theorem compileLoop_lengths (b : Backend) :
    ∀ (fs : List Func) (mds : List FunctionMetaData) (codes : List (List Nat)),
      compileLoop b fs = RunResult.ok (mds, codes) →
      mds.length = fs.length ∧ codes.length = fs.length := by
  intro fs
  induction fs with
  | nil =>
    intro mds codes h
    cases h
    exact ⟨rfl, rfl⟩
  | cons f rest ih =>
    intro mds codes h
    rw [compileLoop] at h
    cases hv : b.verify f with
    | error e => simp only [hv] at h; cases h
    | ok u =>
      cases u
      simp only [hv] at h
      cases hc : b.compile f with
      | error p => obtain ⟨ef, e⟩ := p; simp only [hc] at h; cases h
      | ok p =>
        obtain ⟨f', n⟩ := p
        simp only [hc] at h
        by_cases hz : n = 0
        · rw [if_pos hz] at h; cases h
        · rw [if_neg hz] at h
          cases hrest : compileLoop b rest with
          | err m => simp only [hrest] at h; cases h
          | panic m => simp only [hrest] at h; cases h
          | ok q =>
            obtain ⟨mds', codes'⟩ := q
            simp only [hrest] at h
            cases h
            obtain ⟨h1, h2⟩ := ih mds' codes' hrest
            constructor <;> simp [h1, h2]

theorem compileLoop_append_ok (b : Backend) :
    ∀ (l1 : List Func) (m1 : List FunctionMetaData) (c1 : List (List Nat)) (l2 : List Func),
      compileLoop b l1 = RunResult.ok (m1, c1) →
      compileLoop b (l1 ++ l2) =
        match compileLoop b l2 with
        | RunResult.ok (m2, c2) => RunResult.ok (m1 ++ m2, c1 ++ c2)
        | RunResult.err m => RunResult.err m
        | RunResult.panic m => RunResult.panic m := by
  intro l1
  induction l1 with
  | nil =>
    intro m1 c1 l2 h
    cases h
    simp only [List.nil_append]
    cases hr : compileLoop b l2 with
    | ok q => obtain ⟨m2, c2⟩ := q; simp
    | err m => simp
    | panic m => simp
  | cons f rest ih =>
    intro m1 c1 l2 h
    rw [compileLoop] at h
    rw [List.cons_append, compileLoop]
    cases hv : b.verify f with
    | error e => simp only [hv] at h; cases h
    | ok u =>
      cases u
      simp only [hv] at h
      simp only [hv]
      cases hc : b.compile f with
      | error p => obtain ⟨ef, e⟩ := p; simp only [hc] at h; cases h
      | ok p =>
        obtain ⟨f', n⟩ := p
        simp only [hc] at h
        simp only [hc]
        by_cases hz : n = 0
        · rw [if_pos hz] at h; cases h
        · rw [if_neg hz] at h
          rw [if_neg hz]
          cases hrest : compileLoop b rest with
          | err m => simp only [hrest] at h; cases h
          | panic m => simp only [hrest] at h; cases h
          | ok q =>
            obtain ⟨mds', codes'⟩ := q
            simp only [hrest] at h
            cases h
            rw [ih mds' codes' l2 hrest]
            cases hr : compileLoop b l2 with
            | ok q2 => obtain ⟨m2, c2⟩ := q2; simp [hr]
            | err m => simp [hr]
            | panic m => simp [hr]

theorem compile_module_ok (b : Backend) (tr : TranslationResult) (rt : StandaloneRuntime)
    (addr : Nat → Int) (exec : ExecutableCode)
    (h : compile_module b tr rt addr = RunResult.ok exec) :
    startIndexOk tr = true ∧
      tr.start_index = some exec.start_index ∧
      ∃ mds codes, compileLoop b tr.functions = RunResult.ok (mds, codes) ∧
        exec.functions_code = relocate tr.function_imports_count mds codes rt addr := by
  unfold compile_module at h
  by_cases hs : startIndexOk tr
  · rw [if_pos hs] at h
    cases hloop : compileLoop b tr.functions with
    | err m => rw [hloop] at h; cases h
    | panic m => rw [hloop] at h; cases h
    | ok p =>
      obtain ⟨mds, codes⟩ := p
      rw [hloop] at h
      cases hsi : tr.start_index with
      | none => rw [hsi] at h; cases h
      | some s =>
        rw [hsi] at h
        cases h
        exact ⟨hs, rfl, mds, codes, rfl, rfl⟩
  · rw [if_neg hs] at h; cases h

/-! Map lemmas for the relocation sink. -/

theorem hashLookup_hashInsert (m : List (Nat × α)) (k : Nat) (v : α) :
    hashLookup (hashInsert m k v) k = some v := by
  unfold hashLookup hashInsert
  rw [List.find?_cons_of_pos _ (by simp)]
  rfl

theorem countKey_hashInsert (m : List (Nat × α)) (k : Nat) (v : α) :
    countKey (hashInsert m k v) k = 1 := by
  unfold countKey hashInsert
  rw [List.filter_cons_of_pos (by simp), List.filter_filter]
  rw [List.filter_eq_nil_iff.mpr ?_]
  · rfl
  · intro a _
    simp only [Bool.and_eq_true, beq_iff_eq, bne_iff_ne, ne_eq, not_and]
    intro h1 h2
    exact h2 h1

theorem relocate_clearJts_foldl (c : Nat) (rt : StandaloneRuntime) (addr : Nat → Int)
    (md : List FunctionMetaData) :
    ∀ (k : Nat) (code : List (List Nat)),
      (((md.map clearJts).enumFrom k).foldl (relocateStep c rt addr) code) =
        ((md.enumFrom k).foldl (relocateStep c rt addr) code) := by
  induction md with
  | nil => intro k code; rfl
  | cons m rest ih =>
    intro k code
    show ((rest.map clearJts).enumFrom (k + 1)).foldl (relocateStep c rt addr)
        (relocateStep c rt addr code (k, clearJts m)) = _
    rw [show relocateStep c rt addr code (k, clearJts m) =
        relocateStep c rt addr code (k, m) from rfl]
    exact ih (k + 1) _

/-! Claim theorems. -/

/-- C10: within one function's relocation sink, records of each kind are
keyed by the backend-assigned reference id, and recording a second
relocation of the same kind with the same reference id overwrites the
first: the lookup yields the later record and exactly one binding of that
reference id survives, for each of the three kinds. -/
theorem c10_sink_overwrites_same_ref (s : StandaloneRelocSink)
    (o1 o2 r e1 e2 g1 g2 j1 j2 : Nat) :
    (hashLookup (reloc_func (reloc_func s o1 r g1) o2 r g2).funcs r = some (g2, o2) ∧
        countKey (reloc_func (reloc_func s o1 r g1) o2 r g2).funcs r = 1) ∧
      (hashLookup (reloc_ebb (reloc_ebb s o1 r e1) o2 r e2).ebbs r = some (e2, o2) ∧
        countKey (reloc_ebb (reloc_ebb s o1 r e1) o2 r e2).ebbs r = 1) ∧
      (hashLookup (reloc_jt (reloc_jt s o1 r j1) o2 r j2).jts r = some (j2, o2) ∧
        countKey (reloc_jt (reloc_jt s o1 r j1) o2 r j2).jts r = 1) :=
  ⟨⟨hashLookup_hashInsert _ _ _, countKey_hashInsert _ _ _⟩,
    ⟨hashLookup_hashInsert _ _ _, countKey_hashInsert _ _ _⟩,
    ⟨hashLookup_hashInsert _ _ _, countKey_hashInsert _ _ _⟩⟩

/-- C8: jump-table relocations are recorded by the generation stage (the
sink's `reloc_jt` stores them) but never visited by the resolver: the
result of `relocate` does not depend on the recorded jump-table entries at
all, and the 4-byte placeholder at a recorded jump-table site is left
unchanged whenever the call and block relocation windows of that function
do not overlap it. -/
theorem c8_jump_table_relocations_unresolved :
    (∀ (imports : Nat) (md : List FunctionMetaData) (code : List (List Nat))
        (rt : StandaloneRuntime) (addr : Nat → Int),
        relocate imports (md.map clearJts) code rt addr = relocate imports md code rt addr) ∧
      (∀ (imports : Nat) (md : List FunctionMetaData) (code : List (List Nat))
        (rt : StandaloneRuntime) (addr : Nat → Int) (b : Nat) (m : FunctionMetaData)
        (jt off : Nat),
        md[b]? = some m → b < code.length →
        (jt, off) ∈ values m.relocs.jts →
        (∀ p ∈ values m.relocs.funcs, p.2 + 4 ≤ off ∨ off + 4 ≤ p.2) →
        (∀ p ∈ values m.relocs.ebbs, p.2 + 4 ≤ off ∨ off + 4 ≤ p.2) →
        readU32 ((relocate imports md code rt addr).getD b []) (off + 4) =
          readU32 (code.getD b []) (off + 4)) := by
  constructor
  · intro imports md code rt addr
    exact relocate_clearJts_foldl imports rt addr md 0 code
  · intro imports md code rt addr b m jt off hmd hb _ hdF hdE
    rw [relocate_getD imports md code rt addr b m hmd hb, relocateFunc_eq]
    apply readU32_applyWrites_disjoint
    intro w hw
    rcases List.mem_append.mp hw with hw | hw
    · obtain ⟨p, hp, rfl⟩ := List.mem_map.mp hw
      have := hdF p hp
      omega
    · obtain ⟨p, hp, rfl⟩ := List.mem_map.mp hw
      have := hdE p hp
      omega

/-- C8 witness: a function with one recorded jump-table relocation at
offset 0 and no other relocations keeps its placeholder bytes across
relocation. -/
theorem c8_jump_table_relocations_unresolved_witness :
    readU32 ((relocate 0 [mdJt] [buf8] rt0 addr0).getD 0 []) (0 + 4) =
      readU32 ([buf8].getD 0 []) (0 + 4) :=
  c8_jump_table_relocations_unresolved.2 0 [mdJt] [buf8] rt0 addr0 0 mdJt 0 0
    rfl (by decide) (by decide) (by decide) (by decide)

/-- C1: after the resolver runs, for every recorded call-target relocation
of function `b` (call-site reference `fref`, site offset `off`), the 4-byte
value stored at offset `off + 4` into `b`'s code buffer equals
`address(A) - (address(B) + off + 4)` truncated to a signed 32-bit integer,
where `address(A)` is the base address of the buffer at index
`lookup(fref) - import_count`. Hypotheses: the patched windows of this
function's recorded relocations stay inside the buffer, and no other
recorded relocation of the function overlaps this one's window. -/
theorem c1_call_relocation_displacement
    (imports : Nat) (md : List FunctionMetaData) (code : List (List Nat))
    (rt : StandaloneRuntime) (addr : Nat → Int) (b : Nat) (m : FunctionMetaData)
    (fref off : Nat)
    (hmd : md[b]? = some m)
    (hb : b < code.length)
    (hmem : (fref, off) ∈ values m.relocs.funcs)
    (hboundF : ∀ p ∈ values m.relocs.funcs, p.2 + 8 ≤ (code.getD b []).length)
    (hboundE : ∀ p ∈ values m.relocs.ebbs, p.2 + 8 ≤ (code.getD b []).length)
    (hdisF : ∀ p ∈ values m.relocs.funcs, p = (fref, off) ∨ p.2 + 4 ≤ off ∨ off + 4 ≤ p.2)
    (hdisE : ∀ p ∈ values m.relocs.ebbs, p.2 + 4 ≤ off ∨ off + 4 ≤ p.2) :
    readI32 ((relocate imports md code rt addr).getD b []) (off + 4) =
      asI32 (addr (rt.func_indices fref - imports) - (addr b + ((off : Int) + 4))) := by
  have hin : (off + 4,
      asI32 (addr (rt.func_indices fref - imports) - (addr b + ((off : Int) + 4)))) ∈
      funcWrites imports rt addr b m ++ ebbWrites addr b m :=
    List.mem_append_left _ (List.mem_map.mpr ⟨(fref, off), hmem, rfl⟩)
  have hbw : ∀ w ∈ funcWrites imports rt addr b m ++ ebbWrites addr b m,
      w.1 + 4 ≤ (code.getD b []).length := by
    intro w hw
    rcases List.mem_append.mp hw with hw | hw
    · obtain ⟨p, hp, rfl⟩ := List.mem_map.mp hw
      have := hboundF p hp
      omega
    · obtain ⟨p, hp, rfl⟩ := List.mem_map.mp hw
      have := hboundE p hp
      omega
  have hdw : ∀ w ∈ funcWrites imports rt addr b m ++ ebbWrites addr b m,
      w = (off + 4,
        asI32 (addr (rt.func_indices fref - imports) - (addr b + ((off : Int) + 4)))) ∨
        w.1 + 4 ≤ off + 4 ∨ off + 4 + 4 ≤ w.1 := by
    intro w hw
    rcases List.mem_append.mp hw with hw | hw
    · obtain ⟨p, hp, rfl⟩ := List.mem_map.mp hw
      rcases hdisF p hp with h | h
      · subst h
        exact Or.inl rfl
      · right
        omega
    · obtain ⟨p, hp, rfl⟩ := List.mem_map.mp hw
      have := hdisE p hp
      right
      omega
  rw [relocate_getD imports md code rt addr b m hmd hb, relocateFunc_eq,
    readI32_applyWrites_mem _ _ _ _ hin hbw hdw, asI32_asI32]

/-- C1 witness: one function whose single call-target relocation at site
offset 0 refers to call-site reference 0; the lookup resolves to buffer 0
and the stored displacement is `asI32 (addr(0) - (addr(0) + 4)) = -4`. -/
theorem c1_call_relocation_displacement_witness :
    readI32 ((relocate 0 [mdCall] [buf8] rt0 addr0).getD 0 []) (0 + 4) =
      asI32 (addr0 (rt0.func_indices 0 - 0) - (addr0 0 + ((0 : Int) + 4))) :=
  c1_call_relocation_displacement 0 [mdCall] [buf8] rt0 addr0 0 mdCall 0 0
    rfl (by decide) (by decide) (by decide) (by decide) (by decide) (by decide)

/-- C5: after the resolver runs, for every recorded block-target (ebb)
relocation of a function, the 4-byte value stored at offset `off + 4` into
that same function's buffer equals `block_offset_table[ebb] - (off + 4)` as
a signed 32-bit integer — the function's own base address cancels, so the
value never depends on any buffer's address. Hypotheses as in C1. -/
theorem c5_ebb_relocation_displacement
    (imports : Nat) (md : List FunctionMetaData) (code : List (List Nat))
    (rt : StandaloneRuntime) (addr : Nat → Int) (b : Nat) (m : FunctionMetaData)
    (ebb off : Nat)
    (hmd : md[b]? = some m)
    (hb : b < code.length)
    (hmem : (ebb, off) ∈ values m.relocs.ebbs)
    (hboundF : ∀ p ∈ values m.relocs.funcs, p.2 + 8 ≤ (code.getD b []).length)
    (hboundE : ∀ p ∈ values m.relocs.ebbs, p.2 + 8 ≤ (code.getD b []).length)
    (hdisF : ∀ p ∈ values m.relocs.funcs, p.2 + 4 ≤ off ∨ off + 4 ≤ p.2)
    (hdisE : ∀ p ∈ values m.relocs.ebbs, p = (ebb, off) ∨ p.2 + 4 ≤ off ∨ off + 4 ≤ p.2) :
    readI32 ((relocate imports md code rt addr).getD b []) (off + 4) =
      asI32 ((m.il_func.offsets ebb : Int) - ((off : Int) + 4)) := by
  have hin : (off + 4,
      asI32 ((addr b + (m.il_func.offsets ebb : Int)) - (addr b + ((off : Int) + 4)))) ∈
      funcWrites imports rt addr b m ++ ebbWrites addr b m :=
    List.mem_append_right _ (List.mem_map.mpr ⟨(ebb, off), hmem, rfl⟩)
  have hbw : ∀ w ∈ funcWrites imports rt addr b m ++ ebbWrites addr b m,
      w.1 + 4 ≤ (code.getD b []).length := by
    intro w hw
    rcases List.mem_append.mp hw with hw | hw
    · obtain ⟨p, hp, rfl⟩ := List.mem_map.mp hw
      have := hboundF p hp
      omega
    · obtain ⟨p, hp, rfl⟩ := List.mem_map.mp hw
      have := hboundE p hp
      omega
  have hdw : ∀ w ∈ funcWrites imports rt addr b m ++ ebbWrites addr b m,
      w = (off + 4,
        asI32 ((addr b + (m.il_func.offsets ebb : Int)) - (addr b + ((off : Int) + 4)))) ∨
        w.1 + 4 ≤ off + 4 ∨ off + 4 + 4 ≤ w.1 := by
    intro w hw
    rcases List.mem_append.mp hw with hw | hw
    · obtain ⟨p, hp, rfl⟩ := List.mem_map.mp hw
      have := hdisF p hp
      right
      omega
    · obtain ⟨p, hp, rfl⟩ := List.mem_map.mp hw
      rcases hdisE p hp with h | h
      · subst h
        exact Or.inl rfl
      · right
        omega
  rw [relocate_getD imports md code rt addr b m hmd hb, relocateFunc_eq,
    readI32_applyWrites_mem _ _ _ _ hin hbw hdw, asI32_asI32]
  exact congrArg asI32 (by ring)

/-- C5 witness: one function whose single ebb relocation at site offset 0
targets block 1 at block offset 6; the stored displacement is
`asI32 (6 - 4) = 2`, independent of the buffer's address. -/
theorem c5_ebb_relocation_displacement_witness :
    readI32 ((relocate 0 [mdEbb] [buf8] rt0 addr0).getD 0 []) (0 + 4) =
      asI32 ((mdEbb.il_func.offsets 1 : Int) - ((0 : Int) + 4)) :=
  c5_ebb_relocation_displacement 0 [mdEbb] [buf8] rt0 addr0 0 mdEbb 1 0
    rfl (by decide) (by decide) (by decide) (by decide) (by decide) (by decide)

/-- C2: execute reads the code buffer at position `start_index` of the
compiled-buffer list without subtracting the import count, although the
buffer list is index-aligned with the local (compiled) functions only:
the start index survives compilation unchanged, the buffer list has one
buffer per translated function, the accessed index is the designated local
index exactly when the import count is zero, with a nonzero import count
the accessed index differs from the designated local index whenever it is
in range, and out of range `execute` panics on the `Vec` indexing. -/
theorem c2_execute_start_indexing
    (b : Backend) (tr : TranslationResult) (rt : StandaloneRuntime) (addr : Nat → Int)
    (exec : ExecutableCode) (s : Nat)
    (h : compile_module b tr rt addr = RunResult.ok exec)
    (hs : tr.start_index = some s) :
    exec.start_index = s ∧
      exec.functions_code.length = tr.functions.length ∧
      (tr.function_imports_count = 0 → exec.start_index = s - tr.function_imports_count) ∧
      (0 < tr.function_imports_count → s < exec.functions_code.length →
        exec.start_index ≠ s - tr.function_imports_count) ∧
      (exec.functions_code.length ≤ s →
        ∀ os, execute exec addr os = (RunResult.panic "index out of bounds", [])) := by
  obtain ⟨hok, hsi, mds, codes, hloop, hcode⟩ := compile_module_ok b tr rt addr exec h
  have hstart : exec.start_index = s := by
    rw [hs] at hsi
    exact (Option.some.inj hsi).symm
  have hlen : exec.functions_code.length = tr.functions.length := by
    rw [hcode, relocate_length]
    exact (compileLoop_lengths b tr.functions mds codes hloop).2
  have hge : tr.function_imports_count ≤ s := by
    unfold startIndexOk at hok
    simp only [hs] at hok
    simpa using hok
  refine ⟨hstart, hlen, ?_, ?_, ?_⟩
  · intro hc0
    omega
  · intro hcpos hlt
    omega
  · intro hout os
    unfold execute
    rw [if_neg (by omega)]

/-- C2 witness: compiling a one-import module whose (valid) module-wide
start index is 1 yields a single compiled buffer, and `execute` indexes it
at 1, out of bounds: it panics instead of running the sole local function. -/
theorem c2_execute_start_indexing_witness :
    execImport.start_index = 1 ∧
      execImport.functions_code.length = trImport.functions.length ∧
      (trImport.function_imports_count = 0 →
        execImport.start_index = 1 - trImport.function_imports_count) ∧
      (0 < trImport.function_imports_count →
        1 < execImport.functions_code.length →
        execImport.start_index ≠ 1 - trImport.function_imports_count) ∧
      (execImport.functions_code.length ≤ 1 →
        ∀ os, execute execImport addr0 os = (RunResult.panic "index out of bounds", [])) :=
  c2_execute_start_indexing backendTriv trImport rt0 addr0 execImport 1 rfl rfl

/-- C3 counterexample: a module containing a function that fails the
external verifier makes `compile_module` panic through
`verify_function(...).unwrap()`; no formatted diagnostic (and no value at
all) is returned to the caller, refuting the claim that a diagnostic with
a dump of the function is surfaced. -/
theorem c3_counterexample_verify_panics :
    compile_module backendBadVerify trPlain rt0 addr0 =
        RunResult.panic "called Result::unwrap() on an Err value: bad" ∧
      ∀ s, compile_module backendBadVerify trPlain rt0 addr0 ≠ RunResult.err s := by
  refine ⟨rfl, fun s h => ?_⟩
  rw [show compile_module backendBadVerify trPlain rt0 addr0 =
      RunResult.panic "called Result::unwrap() on an Err value: bad" from rfl] at h
  cases h

/-- C3 (amended): a function that fails the standalone pre-verification
makes `compile_module` panic via `unwrap` — aborting with no partial
result but also without returning the formatted diagnostic — while a
verifier error reported by the backend compile step makes `compile_module`
return the formatted diagnostic of `pretty_verifier_error`, which
identifies the failing instruction/entity and carries the textual dump of
the function. -/
theorem c3_verifier_failure_handling
    (b : Backend) (tr : TranslationResult) (rt : StandaloneRuntime) (addr : Nat → Int) :
    (∀ (pre : List Func) (f : Func) (post : List Func) (m1 : List FunctionMetaData)
        (c1 : List (List Nat)) (ef : Func) (e : VerifierError),
        tr.functions = pre ++ f :: post →
        startIndexOk tr = true →
        compileLoop b pre = RunResult.ok (m1, c1) →
        b.verify f = Except.ok () →
        b.compile f = Except.error (ef, CtonError.verifier e) →
        compile_module b tr rt addr = RunResult.err (pretty_verifier_error ef e)) ∧
      (∀ (pre : List Func) (f : Func) (post : List Func) (m1 : List FunctionMetaData)
        (c1 : List (List Nat)) (ve : VerifierError),
        tr.functions = pre ++ f :: post →
        startIndexOk tr = true →
        compileLoop b pre = RunResult.ok (m1, c1) →
        b.verify f = Except.error ve →
        compile_module b tr rt addr =
          RunResult.panic ("called Result::unwrap() on an Err value: " ++ ve.message)) := by
  constructor
  · intro pre f post m1 c1 ef e hfs hok hpre hv hc
    have hstep : compileLoop b (f :: post) =
        RunResult.err (pretty_verifier_error ef e) := by
      rw [compileLoop]
      simp only [hv, hc]
      rfl
    unfold compile_module
    rw [if_pos hok, hfs, compileLoop_append_ok b pre m1 c1 (f :: post) hpre, hstep]
  · intro pre f post m1 c1 ve hfs hok hpre hv
    have hstep : compileLoop b (f :: post) =
        RunResult.panic ("called Result::unwrap() on an Err value: " ++ ve.message) := by
      rw [compileLoop]
      simp only [hv]
    unfold compile_module
    rw [if_pos hok, hfs, compileLoop_append_ok b pre m1 c1 (f :: post) hpre, hstep]

/-- C3 witness: a backend whose compile step reports a late verifier error
at instruction 3 makes `compile_module` return exactly the
`pretty_verifier_error` diagnostic for the failing function. -/
theorem c3_verifier_failure_handling_witness :
    compile_module backendBadCompile trPlain rt0 addr0 =
      RunResult.err (pretty_verifier_error f0
        { message := "typecheck failed", location := AnyEntity.inst 3 }) :=
  (c3_verifier_failure_handling backendBadCompile trPlain rt0 addr0).1
    [] f0 [] [] [] f0 { message := "typecheck failed", location := AnyEntity.inst 3 }
    rfl rfl rfl rfl rfl

/-- C4: a module whose start index is present and smaller than the import
count makes `compile_module` fail at once with the start-index assertion —
for every backend, so no code generation of local functions can have taken
place and the violation is never silently corrected. -/
theorem c4_imported_start_fails_fast
    (b : Backend) (tr : TranslationResult) (rt : StandaloneRuntime) (addr : Nat → Int)
    (s : Nat) (hs : tr.start_index = some s) (hlt : s < tr.function_imports_count) :
    compile_module b tr rt addr =
      RunResult.panic "imported start functions not supported yet" := by
  have hok : startIndexOk tr = false := by
    unfold startIndexOk
    simp only [hs, decide_eq_false_iff_not]
    omega
  unfold compile_module
  rw [hok]
  rfl

/-- C4 witness: a module with import count 2 and start index 0 is rejected
by the assertion before anything else happens. -/
theorem c4_imported_start_fails_fast_witness :
    compile_module backendTriv trBadStart rt0 addr0 =
      RunResult.panic "imported start functions not supported yet" :=
  c4_imported_start_fails_fast backendTriv trBadStart rt0 addr0 0 rfl (by decide)

/-- C6: a function whose backend compile step succeeds but reports zero
code length makes `compile_module` abort the whole compilation with the
distinct explicit no-code-generated error. -/
theorem c6_zero_code_size_error
    (b : Backend) (tr : TranslationResult) (rt : StandaloneRuntime) (addr : Nat → Int)
    (pre : List Func) (f : Func) (post : List Func) (m1 : List FunctionMetaData)
    (c1 : List (List Nat)) (f' : Func)
    (hfs : tr.functions = pre ++ f :: post)
    (hok : startIndexOk tr = true)
    (hpre : compileLoop b pre = RunResult.ok (m1, c1))
    (hv : b.verify f = Except.ok ())
    (hc : b.compile f = Except.ok (f', 0)) :
    compile_module b tr rt addr = RunResult.err "no code generated by Cretonne" := by
  have hstep : compileLoop b (f :: post) =
      RunResult.err "no code generated by Cretonne" := by
    rw [compileLoop]
    simp only [hv, hc]
    rfl
  unfold compile_module
  rw [if_pos hok, hfs, compileLoop_append_ok b pre m1 c1 (f :: post) hpre, hstep]

/-- C6 witness: a backend reporting zero emitted bytes for the sole
function yields exactly the no-code-generated error. -/
theorem c6_zero_code_size_error_witness :
    compile_module backendZero trPlain rt0 addr0 =
      RunResult.err "no code generated by Cretonne" :=
  c6_zero_code_size_error backendZero trPlain rt0 addr0 [] f0 [] [] [] f0
    rfl rfl rfl rfl rfl

/-- C7: a module with no start index never reaches the launcher — the
composed pipeline produces no OS event at all, so no code buffer receives
an executable permission transition — and when every function compiles the
failure surfaced is exactly the missing-entry error. -/
theorem c7_missing_start_fails
    (b : Backend) (tr : TranslationResult) (rt : StandaloneRuntime) (addr : Nat → Int)
    (os : Int → Nat → Except OsError Unit)
    (hs : tr.start_index = none) :
    (runModule b tr rt addr os).2 = [] ∧
      (∀ (mds : List FunctionMetaData) (codes : List (List Nat)),
        compileLoop b tr.functions = RunResult.ok (mds, codes) →
        runModule b tr rt addr os =
          (RunResult.err "No start function defined, aborting execution", [])) := by
  have hok : startIndexOk tr = true := by
    unfold startIndexOk
    rw [hs]
  constructor
  · unfold runModule
    cases hcm : compile_module b tr rt addr with
    | ok exec =>
      obtain ⟨_, hsi, _⟩ := compile_module_ok b tr rt addr exec hcm
      rw [hs] at hsi
      cases hsi
    | err m => rfl
    | panic m => rfl
  · intro mds codes hloop
    have hcm : compile_module b tr rt addr =
        RunResult.err "No start function defined, aborting execution" := by
      unfold compile_module
      rw [if_pos hok]
      simp only [hloop, hs]
    unfold runModule
    rw [hcm]

/-- C7 witness: the one-function module without a start index fails with
the missing-entry error and produces an empty OS-event trace. -/
theorem c7_missing_start_fails_witness :
    (runModule backendTriv trNoStart rt0 addr0 os0).2 = [] ∧
      (∀ (mds : List FunctionMetaData) (codes : List (List Nat)),
        compileLoop backendTriv trNoStart.functions = RunResult.ok (mds, codes) →
        runModule backendTriv trNoStart rt0 addr0 os0 =
          (RunResult.err "No start function defined, aborting execution", [])) :=
  c7_missing_start_fails backendTriv trNoStart rt0 addr0 os0 rfl

/-- C9: when the OS denies the permission change of the start function's
buffer, `execute` returns an explicit error carrying the OS-reported
description, the event trace shows exactly the one denied protect attempt
(no retry), and the generated code is never invoked. -/
theorem c9_protect_failure
    (exec : ExecutableCode) (addr : Nat → Int)
    (os : Int → Nat → Except OsError Unit) (e : OsError)
    (hidx : exec.start_index < exec.functions_code.length)
    (hos : os (addr exec.start_index)
        (exec.functions_code.getD exec.start_index []).length = Except.error e) :
    execute exec addr os =
        (RunResult.err ("failed to give executable permission to code: " ++ e.description),
          [OsEvent.protect (addr exec.start_index)
            (exec.functions_code.getD exec.start_index []).length]) ∧
      ∀ a, OsEvent.call a ∉ (execute exec addr os).2 := by
  have hexec : execute exec addr os =
      (RunResult.err ("failed to give executable permission to code: " ++ e.description),
        [OsEvent.protect (addr exec.start_index)
          (exec.functions_code.getD exec.start_index []).length]) := by
    unfold execute
    rw [if_pos hidx]
    simp only [hos]
  refine ⟨hexec, fun a ha => ?_⟩
  rw [hexec] at ha
  simp at ha

/-- C9 witness: with a denying OS oracle, executing the compiled
one-function module surfaces the OS reason, attempts the transition once,
and never calls the code. -/
theorem c9_protect_failure_witness :
    execute execPlain addr0 osFail =
        (RunResult.err ("failed to give executable permission to code: " ++ "mprotect denied"),
          [OsEvent.protect (addr0 execPlain.start_index)
            (execPlain.functions_code.getD execPlain.start_index []).length]) ∧
      ∀ a, OsEvent.call a ∉ (execute execPlain addr0 osFail).2 :=
  c9_protect_failure execPlain addr0 osFail { description := "mprotect denied" }
    (by decide) rfl

end WasmStandalone
